import Mathlib

/-!
# vban: receptor buffer sizing, receptor control loop, and the ping sender

A shallow embedding of `src/receptor/main.c` (`computeSize`, the `while (MainRun)`
loop of `main` together with its set-up and tear-down) and of `src/ping/main.c`
(`main`).  Calls into the socket, audio and packet layers are external: their
return values are inputs of the model and every call is recorded in a trace.
-/

namespace Vban

/-! ## Constants of `vban/vban.h` -/

/-- Modelled from the spec: the header `vban/vban.h` is not among the sources, so the
sizes it declares are parameters: `sizeof(struct VBanHeader)`, the maximum datagram size
`VBAN_PROTOCOL_MAX_SIZE`, and `sizeof(struct VBanServiceData)` (the service descriptor
that follows the header in a SERVICE packet). -/
structure VbanH where
  VBAN_HEADER_SIZE : Nat
  VBAN_PROTOCOL_MAX_SIZE : Nat
  sizeof_VBanServiceData : Nat
  deriving DecidableEq

/-- Modelled from the spec: `VBAN_DATA_MAX_SIZE`, the maximum payload size, is the maximum
datagram size minus the header size. -/
def VbanH.VBAN_DATA_MAX_SIZE (c : VbanH) : Nat :=
  c.VBAN_PROTOCOL_MAX_SIZE - c.VBAN_HEADER_SIZE

/-- Modelled from the spec: the values of the reference protocol, used for the concrete
evaluations only (the general theorems hold for every `VbanH`): a 28 byte header (the
fields `vban`, `format_SR`, `format_nbs`, `format_nbc`, `format_bit`, `streamname[16]` and
`nuFrame` that `main` assigns: 4 + 1 + 1 + 1 + 1 + 16 + 4), datagrams of at most 1464
bytes, and the 676 byte service descriptor. -/
def upstream : VbanH :=
  { VBAN_HEADER_SIZE := 28, VBAN_PROTOCOL_MAX_SIZE := 1464, sizeof_VBanServiceData := 676 }

/-! ## `computeSize` (receptor/main.c) -/

/-- The loop `for (int i = 0; i < quality; ++i) nnn *= 2;` on a `size_t` of `bits` bits:
`k` remaining rounds starting from the value `nnn`. -/
def computeSize_loop (bits : Nat) : Nat → Nat → Nat
  | 0, nnn => nnn
  | k + 1, nnn => computeSize_loop bits k ((nnn * 2) % 2 ^ bits)

/-- The function `computeSize(unsigned char quality)`; `bits` is the width of `size_t` and
`nmin` the value of `VBAN_PROTOCOL_MAX_SIZE`. -/
def computeSize (bits nmin quality : Nat) : Nat :=
  let nnn := computeSize_loop bits quality (512 % 2 ^ bits)
  let nnn := (nnn * 3) % 2 ^ bits
  if nnn < nmin then nmin else nnn

/-! ## Calls to the external layers -/

/-- The calls that `main` (receptor and ping) makes into the socket, audio and packet
layers, with the value returned by the calls that open or drive a resource and the byte
count of a `socket_write`; `strncpy_msg offset len` is the copy of the message into
`main_s.buffer` made by the sender. -/
inductive Event
  | socket_init (ret : Int)
  | audio_init (ret : Int)
  | audio_set_map_config (ret : Int)
  | socket_write (nbytes : Nat)
  | socket_read
  | packet_check
  | packet_get_stream_config
  | audio_set_stream_config (ret : Int)
  | audio_write (ret : Int)
  | audio_release
  | socket_release
  | strncpy_msg (offset len : Nat)
  deriving DecidableEq

/-- Recognises an `audio_init` call, whatever it returned. -/
def Event.isAudioInit : Event → Bool
  | .audio_init _ => true
  | _ => false

/-- Recognises an `audio_write` call, whatever it returned. -/
def Event.isAudioWrite : Event → Bool
  | .audio_write _ => true
  | _ => false

/-- Recognises a call that touches the audio backend or decodes a stream configuration. -/
def Event.isBackendOp : Event → Bool
  | .packet_get_stream_config => true
  | .audio_set_stream_config _ => true
  | .audio_write _ => true
  | .audio_init _ => true
  | .audio_set_map_config _ => true
  | .audio_release => true
  | _ => false

/-! ## The receptor loop (receptor/main.c, `main`) -/

/-- What the environment does during one pass of `while (MainRun)`: whether
`signalHandler` cleared `MainRun` before the loop condition is tested, and the values
returned by `socket_read`, `packet_check`, `audio_set_stream_config`, `audio_write` and
the `audio_init` of the recovery path (each used only if the call is made). -/
structure IterIn where
  stop : Bool
  size : Int
  check : Int
  setcfg : Int
  write : Int
  reinit : Int
  deriving DecidableEq

/-- The variables of `main` that the loop reads or writes: the global `MainRun`, the
counter `i`, and the locals `ret` and `size`. -/
structure LoopState where
  MainRun : Bool
  i : Int
  ret : Int
  size : Int
  deriving DecidableEq

/-- Result of one pass through the loop body: the calls made, the variables afterwards,
and whether the pass left the loop through `break`. -/
structure IterOut where
  events : List Event
  state : LoopState
  brk : Bool
  deriving DecidableEq

/-- One pass through the body of `while (MainRun)`.  The value that
`audio_set_stream_config` returns is assigned to `ret` and overwritten by the value of
`audio_write` before anything reads it; the test that followed it is commented out in the
source, like the test on the value of `socket_read`. -/
def iteration (c : VbanH) (s : LoopState) (x : IterIn) : IterOut :=
  let beacon : List Event :=
    if s.i ≥ 512 then [Event.socket_write (c.VBAN_HEADER_SIZE + c.sizeof_VBanServiceData)] else []
  let i0 : Int := if s.i ≥ 512 then 0 else s.i
  let recv : List Event := beacon ++ [Event.socket_read, Event.packet_check]
  if x.check = 0 then
    let play : List Event :=
      recv ++ [Event.packet_get_stream_config, Event.audio_set_stream_config x.setcfg,
               Event.audio_write x.write]
    if x.write < 0 then
      if x.reinit ≠ 0 then
        { events := play ++ [Event.audio_init x.reinit],
          state := { MainRun := false, i := i0, ret := x.reinit, size := x.size },
          brk := true }
      else
        { events := play ++ [Event.audio_init x.reinit],
          state := { MainRun := s.MainRun, i := i0 + 1, ret := x.reinit, size := x.size },
          brk := false }
    else
      { events := play,
        state := { MainRun := s.MainRun, i := i0 + 1, ret := x.write, size := x.size },
        brk := false }
  else
    { events := recv,
      state := { MainRun := s.MainRun, i := i0 + 1, ret := s.ret, size := x.size },
      brk := false }

/-- Record of one executed pass: the value of `i` when the loop condition was tested and
the calls made in the pass. -/
structure IterLog where
  head_i : Int
  events : List Event
  deriving DecidableEq

/-- Result of running the loop against a finite prefix of the environment: the passes
executed, the variables at the end, and whether the loop was left (`false` means the
prefix ran out while the loop was still running). -/
structure LoopOut where
  iters : List IterLog
  state : LoopState
  exited : Bool
  deriving DecidableEq

/-- The loop `while (MainRun) { ... }`, one environment record per test of the loop
condition. -/
def receptor_loop (c : VbanH) : List IterIn → LoopState → LoopOut
  | [], s => { iters := [], state := s, exited := false }
  | x :: xs, s =>
    let s0 : LoopState := if x.stop then { s with MainRun := false } else s
    if s0.MainRun then
      let o := iteration c s0 x
      if o.brk then
        { iters := [{ head_i := s0.i, events := o.events }], state := o.state, exited := true }
      else
        let r := receptor_loop c xs o.state
        { iters := { head_i := s0.i, events := o.events } :: r.iters,
          state := r.state, exited := r.exited }
    else
      { iters := [], state := s0, exited := true }

/-- Return values of the calls made by `main` before the loop. -/
structure SetupIn where
  get_options : Int
  socket_init1 : Int
  audio_init : Int
  audio_set_map_config : Int
  socket_init2 : Int
  deriving DecidableEq

/-- Result of `main`: the calls made, in order, and the exit status (`none` while the
loop is still running at the end of the supplied environment prefix). -/
structure MainOut where
  trace : List Event
  ret : Option Int
  deriving DecidableEq

/-- All events of the executed passes, in order. -/
def loop_trace (its : List IterLog) : List Event :=
  (its.map IterLog.events).flatten

/-- The receptor's `main`. -/
def receptor_main (c : VbanH) (su : SetupIn) (ins : List IterIn) : MainOut :=
  if su.get_options ≠ 0 then
    { trace := [], ret := some su.get_options }
  else if su.socket_init1 ≠ 0 then
    { trace := [Event.socket_init su.socket_init1], ret := some su.socket_init1 }
  else if su.audio_init ≠ 0 then
    { trace := [Event.socket_init su.socket_init1, Event.audio_init su.audio_init],
      ret := some su.audio_init }
  else if su.audio_set_map_config ≠ 0 then
    { trace := [Event.socket_init su.socket_init1, Event.audio_init su.audio_init,
                Event.audio_set_map_config su.audio_set_map_config],
      ret := some su.audio_set_map_config }
  else if su.socket_init2 ≠ 0 then
    { trace := [Event.socket_init su.socket_init1, Event.audio_init su.audio_init,
                Event.audio_set_map_config su.audio_set_map_config,
                Event.socket_init su.socket_init2],
      ret := some su.socket_init2 }
  else
    let r := receptor_loop c ins { MainRun := true, i := 0, ret := su.socket_init2, size := 0 }
    let tr : List Event :=
      [Event.socket_init su.socket_init1, Event.audio_init su.audio_init,
       Event.audio_set_map_config su.audio_set_map_config,
       Event.socket_init su.socket_init2] ++ loop_trace r.iters
    if r.exited then
      { trace := tr ++ [Event.audio_release, Event.socket_release], ret := some 0 }
    else
      { trace := tr, ret := none }

/-! ## The ping sender (ping/main.c, `main`) -/

/-- Inputs of the sender's `main`: the value returned by `get_options`, the length
`strlen(argv[argc-1])` of the message, and the values returned by `socket_init` and
`socket_write`. -/
structure PingIn where
  get_options : Int
  len : Nat
  socket_init : Int
  socket_write : Int
  deriving DecidableEq

/-- Result of the sender's `main`: the calls made and the exit status.  The status is
`none` when the run has written outside `main_s.buffer`: from that write on the behaviour
of the program is undefined, the trace ends with the write and no exit status is claimed. -/
structure PingOut where
  trace : List Event
  ret : Option Int
  deriving DecidableEq

/-- The sender's `main`.  The service descriptor is written at offset
`sizeof(struct VBanHeader)` of `main_s.buffer`, an array of `VBAN_PROTOCOL_MAX_SIZE`
bytes, and `strncpy` copies the `len` bytes of the message right after it, to offset
`sizeof(struct VBanHeader) + sizeof(struct VBanServiceData)`.  When header, descriptor and
message do not fit the array, the copy runs past its end and the behaviour is undefined:
the model stops at the copy. -/
def ping_main (c : VbanH) (x : PingIn) : PingOut :=
  if x.get_options ≠ 0 then
    { trace := [], ret := some x.get_options }
  else if x.len > c.VBAN_DATA_MAX_SIZE - 1 then
    { trace := [], ret := some 1 }
  else if c.VBAN_HEADER_SIZE + c.sizeof_VBanServiceData + x.len > c.VBAN_PROTOCOL_MAX_SIZE then
    { trace := [Event.strncpy_msg (c.VBAN_HEADER_SIZE + c.sizeof_VBanServiceData) x.len],
      ret := none }
  else
    let build : List Event :=
      [Event.strncpy_msg (c.VBAN_HEADER_SIZE + c.sizeof_VBanServiceData) x.len,
       Event.socket_init x.socket_init]
    if x.socket_init ≠ 0 then
      { trace := build, ret := some x.socket_init }
    else
      { trace := build ++
          [Event.socket_write (c.VBAN_HEADER_SIZE + c.sizeof_VBanServiceData + x.len),
           Event.socket_release],
        ret := some x.socket_write }

/-! ## Auxiliary definitions for the statements -/

/-- The size of the service beacon: header plus service descriptor. -/
def beacon_size (c : VbanH) : Nat := c.VBAN_HEADER_SIZE + c.sizeof_VBanServiceData

/-- The combination of results on which a pass leaves the loop through `break`: the
packet is accepted, `audio_write` fails and the `audio_init` that follows fails too. -/
def IterIn.fatal (x : IterIn) : Prop := x.check = 0 ∧ x.write < 0 ∧ x.reinit ≠ 0

instance (x : IterIn) : Decidable x.fatal := by unfold IterIn.fatal; infer_instance

/-- Closed form of the counter `i` at the test of the loop condition that precedes pass
`k` (zero-based): 0 before the first pass, then 1, 2, ..., 512, 1, 2, ..., 512, ... -/
def counter_at (k : Nat) : Int := if k = 0 then 0 else ((k - 1) % 512 + 1 : Nat)

/-! ## Buffer sizing -/

/-- The doubling loop multiplies by `2 ^ k` modulo `2 ^ bits`. -/
theorem computeSize_loop_mod (bits k nnn : Nat) :
    computeSize_loop bits k nnn % 2 ^ bits = (nnn * 2 ^ k) % 2 ^ bits := by
  induction k generalizing nnn with
  | zero => simp [computeSize_loop]
  | succ k ih =>
    rw [computeSize_loop, ih, Nat.mod_mul_mod, pow_succ]
    congr 1
    ring

/-- The doubling loop keeps a value that fits `size_t` inside `size_t`. -/
theorem computeSize_loop_lt (bits k nnn : Nat) (h : nnn < 2 ^ bits) :
    computeSize_loop bits k nnn < 2 ^ bits := by
  induction k generalizing nnn with
  | zero => simpa [computeSize_loop] using h
  | succ k ih =>
    rw [computeSize_loop]
    exact ih _ (Nat.mod_lt _ (Nat.two_pow_pos bits))

/-- Closed form of the doubling loop. -/
theorem computeSize_loop_eq (bits k nnn : Nat) (h : nnn < 2 ^ bits) :
    computeSize_loop bits k nnn = (nnn * 2 ^ k) % 2 ^ bits := by
  rw [← computeSize_loop_mod, Nat.mod_eq_of_lt (computeSize_loop_lt bits k nnn h)]

/-- Closed form of `computeSize`: the product is reduced modulo `2 ^ bits` before the
floor is applied. -/
theorem computeSize_eq_mod (bits nmin q : Nat) :
    computeSize bits nmin q = max nmin ((512 * 2 ^ q * 3) % 2 ^ bits) := by
  unfold computeSize
  simp only
  rw [computeSize_loop_eq bits q _ (Nat.mod_lt _ (Nat.two_pow_pos bits))]
  have e : ((512 % 2 ^ bits * 2 ^ q) % 2 ^ bits * 3) % 2 ^ bits
      = (512 * 2 ^ q * 3) % 2 ^ bits := by
    rw [Nat.mod_mul_mod, Nat.mul_assoc, Nat.mod_mul_mod, Nat.mul_assoc]
  rw [e]
  split
  · omega
  · omega

/-- When the product fits `size_t`, `computeSize` is the floored product. -/
theorem computeSize_exact (bits nmin q : Nat) (h : 512 * 2 ^ q * 3 < 2 ^ bits) :
    computeSize bits nmin q = max nmin (512 * 2 ^ q * 3) := by
  rw [computeSize_eq_mod, Nat.mod_eq_of_lt h]

/-- The result of `computeSize` is never below the floor. -/
theorem computeSize_floor (bits nmin q : Nat) : nmin ≤ computeSize bits nmin q := by
  rw [computeSize_eq_mod]; exact le_max_left _ _

/-- Once `512 * 2 ^ q` is a multiple of `2 ^ bits` the product wraps to zero and the
result is the floor. -/
theorem computeSize_wraps (bits nmin q : Nat) (h : bits ≤ q + 9) :
    computeSize bits nmin q = nmin := by
  rw [computeSize_eq_mod]
  have h0 : (512 * 2 ^ q * 3) % 2 ^ bits = 0 := by
    apply Nat.mod_eq_zero_of_dvd
    have e : (512 : Nat) * 2 ^ q = 2 ^ (q + 9) := by rw [pow_add]; norm_num; ring
    rw [e]
    exact Dvd.dvd.mul_right (pow_dvd_pow 2 h) 3
  rw [h0]; simp

/-- C1, as stated, fails: with a 64 bit `size_t` and the floor 1464, the quality 55 (an
`unsigned char` value) gives 1464, not the mathematical `max 1464 (512 * 2 ^ 55 * 3)`. -/
theorem computeSize_quality55_counterexample :
    (55 : Nat) ≤ 255 ∧ computeSize 64 1464 55 = 1464 ∧
      computeSize 64 1464 55 ≠ max 1464 (512 * 2 ^ 55 * 3) := by
  decide

/-- C1 (amended): for every quality `q` whose product `512 * 2 ^ q * 3` fits `size_t`
(`bits` bits wide), `computeSize q` equals `max VBAN_PROTOCOL_MAX_SIZE (512 * 2 ^ q * 3)`
with the product taken as a mathematical integer. -/
theorem computeSize_eq_max_of_fits (bits nmin q : Nat) (h : 512 * 2 ^ q * 3 < 2 ^ bits) :
    computeSize bits nmin q = max nmin (512 * 2 ^ q * 3) :=
  computeSize_exact bits nmin q h

/-- Witness for C1 (amended): quality 53 is the largest that fits a 64 bit `size_t`. -/
theorem computeSize_eq_max_of_fits_witness :
    512 * 2 ^ 53 * 3 < 2 ^ 64 ∧ computeSize 64 1464 53 = max 1464 (512 * 2 ^ 53 * 3) :=
  ⟨by decide, computeSize_eq_max_of_fits 64 1464 53 (by decide)⟩

/-- C2: on a `size_t` of at least 16 bits and with a floor `VBAN_PROTOCOL_MAX_SIZE` below
3072 (1464 in the protocol), `computeSize` is strictly increasing on the qualities 0..5,
and for every quality 0..255 the result is at least `VBAN_PROTOCOL_MAX_SIZE`. -/
theorem computeSize_strictMono_and_floor (bits nmin : Nat) (hb : 16 ≤ bits)
    (hn : nmin < 3072) :
    (∀ q1 q2 : Nat, q1 < q2 → q2 ≤ 5 →
        computeSize bits nmin q1 < computeSize bits nmin q2) ∧
    (∀ q : Nat, q ≤ 255 → nmin ≤ computeSize bits nmin q) := by
  have h16 : (2:Nat) ^ 16 ≤ 2 ^ bits := Nat.pow_le_pow_right (by norm_num) hb
  have ex : ∀ q, q ≤ 5 → computeSize bits nmin q = max nmin (512 * 2 ^ q * 3) := by
    intro q hq
    apply computeSize_exact
    have h5 : (2:Nat) ^ q ≤ 2 ^ 5 := Nat.pow_le_pow_right (by norm_num) hq
    have h6 : 512 * 2 ^ q * 3 ≤ 512 * 2 ^ 5 * 3 := by nlinarith
    norm_num at h6 h16 ⊢
    omega
  refine ⟨?_, fun q _ => computeSize_floor bits nmin q⟩
  intro q1 q2 h12 h2
  rw [ex q1 (by omega), ex q2 h2]
  have hp : (2:Nat) ^ (q1 + 1) ≤ 2 ^ q2 := Nat.pow_le_pow_right (by norm_num) h12
  have h1 : 1 ≤ 2 ^ q1 := Nat.one_le_two_pow
  rw [pow_succ] at hp
  simp only [max_def]
  split <;> split <;> omega

/-- Witness for C2: a 64 bit `size_t` and the protocol value 1464. -/
theorem computeSize_strictMono_and_floor_witness :
    (16 ≤ 64 ∧ 1464 < 3072) ∧
    ((∀ q1 q2 : Nat, q1 < q2 → q2 ≤ 5 →
        computeSize 64 1464 q1 < computeSize 64 1464 q2) ∧
     (∀ q : Nat, q ≤ 255 → 1464 ≤ computeSize 64 1464 q)) :=
  ⟨by decide, computeSize_strictMono_and_floor 64 1464 (by decide) (by decide)⟩

/-! ## One pass of the receptor loop -/

/-- A pass leaves the loop through `break` exactly on the fatal combination. -/
theorem iteration_brk_iff (c : VbanH) (s : LoopState) (x : IterIn) :
    (iteration c s x).brk = true ↔ x.fatal := by
  unfold iteration IterIn.fatal
  by_cases hc : x.check = 0 <;> by_cases hw : x.write < 0 <;> by_cases hr : x.reinit = 0 <;>
    simp [hc, hw, hr]

/-- A pass that does not `break` leaves `MainRun` as it found it. -/
theorem iteration_MainRun (c : VbanH) (s : LoopState) (x : IterIn)
    (h : (iteration c s x).brk = false) : (iteration c s x).state.MainRun = s.MainRun := by
  unfold iteration at h ⊢
  dsimp only at h ⊢
  split_ifs at h ⊢ <;> simp_all

/-- A pass that does not `break` resets the counter when it was 512 or more and then
increments it. -/
theorem iteration_i (c : VbanH) (s : LoopState) (x : IterIn)
    (h : (iteration c s x).brk = false) :
    (iteration c s x).state.i = (if s.i ≥ 512 then 0 else s.i) + 1 := by
  unfold iteration at h ⊢
  dsimp only at h ⊢
  split_ifs at h ⊢ <;> simp_all

/-- A pass that does `break` resets the counter when it was 512 or more and does not
increment it. -/
theorem iteration_i_brk (c : VbanH) (s : LoopState) (x : IterIn)
    (h : (iteration c s x).brk = true) :
    (iteration c s x).state.i = (if s.i ≥ 512 then 0 else s.i) := by
  unfold iteration at h ⊢
  dsimp only at h ⊢
  split_ifs at h ⊢ <;> simp_all

/-- The calls of a pass: the beacon when due, the receive and the check, then the playback
calls for an accepted packet and the re-open after a failed write. -/
theorem iteration_events (c : VbanH) (s : LoopState) (x : IterIn) :
    (iteration c s x).events =
      (if s.i ≥ 512 then [Event.socket_write (beacon_size c)] else []) ++
      [Event.socket_read, Event.packet_check] ++
      (if x.check = 0 then
        [Event.packet_get_stream_config, Event.audio_set_stream_config x.setcfg,
         Event.audio_write x.write] ++
          (if x.write < 0 then [Event.audio_init x.reinit] else [])
       else []) := by
  unfold iteration beacon_size
  by_cases hc : x.check = 0 <;> by_cases hw : x.write < 0 <;> by_cases hr : x.reinit = 0 <;>
    simp [hc, hw, hr]

/-- Unfolding of the loop at a pass that is executed and does not `break`. -/
theorem receptor_loop_cons_continue (c : VbanH) (x : IterIn) (xs : List IterIn)
    (s : LoopState) (hs : s.MainRun = true) (hx : x.stop = false)
    (hb : (iteration c s x).brk = false) :
    receptor_loop c (x :: xs) s =
      { iters := { head_i := s.i, events := (iteration c s x).events } ::
          (receptor_loop c xs (iteration c s x).state).iters,
        state := (receptor_loop c xs (iteration c s x).state).state,
        exited := (receptor_loop c xs (iteration c s x).state).exited } := by
  simp [receptor_loop, hs, hx, hb]

/-- Unfolding of the loop at a pass that is executed and does `break`. -/
theorem receptor_loop_cons_break (c : VbanH) (x : IterIn) (xs : List IterIn)
    (s : LoopState) (hs : s.MainRun = true) (hx : x.stop = false)
    (hb : (iteration c s x).brk = true) :
    receptor_loop c (x :: xs) s =
      { iters := [{ head_i := s.i, events := (iteration c s x).events }],
        state := (iteration c s x).state, exited := true } := by
  simp [receptor_loop, hs, hx, hb]

/-! ## The beacon counter -/

theorem counter_at_succ (k : Nat) :
    counter_at (k + 1) = (if counter_at k ≥ 512 then 0 else counter_at k) + 1 := by
  cases k with
  | zero => simp [counter_at]
  | succ m =>
    simp only [counter_at, Nat.add_sub_cancel, Nat.succ_ne_zero, if_false]
    split_ifs <;> omega

theorem counter_at_bounds (k : Nat) : 0 ≤ counter_at k ∧ counter_at k ≤ 512 := by
  unfold counter_at
  split_ifs <;> omega

theorem counter_at_ge_iff (k : Nat) : counter_at k ≥ 512 ↔ (0 < k ∧ k % 512 = 0) := by
  unfold counter_at
  split_ifs <;> omega

/-- In a run of the loop that starts with the counter of pass `n`, the pass at position
`k` sees the counter of pass `n + k`, and its calls are those of the loop body run from
that counter. -/
theorem receptor_loop_head_i (c : VbanH) :
    ∀ (ins : List IterIn) (s : LoopState) (n : Nat), s.i = counter_at n →
      ∀ (k : Nat) (log : IterLog), (receptor_loop c ins s).iters[k]? = some log →
        log.head_i = counter_at (n + k) ∧
        ∃ (s1 : LoopState) (x : IterIn), s1.i = log.head_i ∧
          log.events = (iteration c s1 x).events := by
  intro ins
  induction ins with
  | nil => intro s n _ k log h; simp [receptor_loop] at h
  | cons x xs ih =>
    intro s n hs k log h
    by_cases hrun : s.MainRun = true ∧ x.stop = false
    · obtain ⟨hm, hx⟩ := hrun
      by_cases hb : (iteration c s x).brk = true
      · rw [receptor_loop_cons_break c x xs s hm hx hb] at h
        cases k with
        | zero =>
          simp at h
          subst h
          exact ⟨by simpa using hs, s, x, rfl, rfl⟩
        | succ k => simp at h
      · have hb2 : (iteration c s x).brk = false := by simpa using hb
        rw [receptor_loop_cons_continue c x xs s hm hx hb2] at h
        cases k with
        | zero =>
          simp at h
          subst h
          exact ⟨by simpa using hs, s, x, rfl, rfl⟩
        | succ k =>
          simp at h
          have hi : (iteration c s x).state.i = counter_at (n + 1) := by
            rw [iteration_i c s x hb2, counter_at_succ, hs]
          have := ih (iteration c s x).state (n + 1) hi k log h
          have e : n + 1 + k = n + (k + 1) := by omega
          rw [e] at this
          exact this
    · have : (receptor_loop c (x :: xs) s).iters = [] := by
        unfold receptor_loop
        by_cases hx : x.stop = true
        · simp [hx]
        · have hx2 : x.stop = false := by simpa using hx
          have hm : s.MainRun = false := by
            by_cases hm : s.MainRun = true
            · exact absurd ⟨hm, hx2⟩ hrun
            · simpa using hm
          simp [hx2, hm]
      rw [this] at h
      simp at h

/-- The counter stays between 0 and 512 up to the end of the run. -/
theorem receptor_loop_final_i (c : VbanH) :
    ∀ (ins : List IterIn) (s : LoopState), 0 ≤ s.i → s.i ≤ 512 →
      0 ≤ (receptor_loop c ins s).state.i ∧ (receptor_loop c ins s).state.i ≤ 512 := by
  intro ins
  induction ins with
  | nil => intro s h0 h1; simpa [receptor_loop] using ⟨h0, h1⟩
  | cons x xs ih =>
    intro s h0 h1
    by_cases hrun : s.MainRun = true ∧ x.stop = false
    · obtain ⟨hm, hx⟩ := hrun
      by_cases hb : (iteration c s x).brk = true
      · rw [receptor_loop_cons_break c x xs s hm hx hb]
        dsimp only
        rw [iteration_i_brk c s x hb]
        split_ifs <;> omega
      · have hb2 : (iteration c s x).brk = false := by simpa using hb
        rw [receptor_loop_cons_continue c x xs s hm hx hb2]
        dsimp only
        apply ih
        · rw [iteration_i c s x hb2]; split_ifs <;> omega
        · rw [iteration_i c s x hb2]; split_ifs <;> omega
    · have : (receptor_loop c (x :: xs) s).state.i = s.i := by
        unfold receptor_loop
        by_cases hx : x.stop = true
        · simp [hx]
        · have hx2 : x.stop = false := by simpa using hx
          have hm : s.MainRun = false := by
            by_cases hm : s.MainRun = true
            · exact absurd ⟨hm, hx2⟩ hrun
            · simpa using hm
          simp [hx2, hm]
      rw [this]
      exact ⟨h0, h1⟩

/-- The first pass of a run whose loop condition holds. -/
theorem receptor_loop_first (c : VbanH) (x : IterIn) (xs : List IterIn) (s : LoopState)
    (hs : s.MainRun = true) (hx : x.stop = false) :
    (receptor_loop c (x :: xs) s).iters[0]? =
      some { head_i := s.i, events := (iteration c s x).events } := by
  by_cases hb : (iteration c s x).brk = true
  · rw [receptor_loop_cons_break c x xs s hs hx hb]
    simp
  · have hb2 : (iteration c s x).brk = false := by simpa using hb
    rw [receptor_loop_cons_continue c x xs s hs hx hb2]
    simp

/-- Every pass calls `socket_read`. -/
theorem socket_read_mem_iteration (c : VbanH) (s : LoopState) (x : IterIn) :
    Event.socket_read ∈ (iteration c s x).events := by
  rw [iteration_events]; simp

/-- A run in which the passes of `pre` are executed without the fatal combination and the
next pass meets it leaves the loop with `MainRun` cleared. -/
theorem receptor_loop_reaches_fatal (c : VbanH) :
    ∀ (pre : List IterIn) (s : LoopState) (x : IterIn) (post : List IterIn),
      s.MainRun = true → (∀ y ∈ pre, y.stop = false ∧ ¬ y.fatal) →
      x.stop = false → x.fatal →
      (receptor_loop c (pre ++ x :: post) s).exited = true ∧
      (receptor_loop c (pre ++ x :: post) s).state.MainRun = false := by
  intro pre
  induction pre with
  | nil =>
    intro s x post hs _ hx hf
    have hb : (iteration c s x).brk = true := (iteration_brk_iff c s x).2 hf
    rw [List.nil_append, receptor_loop_cons_break c x post s hs hx hb]
    refine ⟨rfl, ?_⟩
    obtain ⟨hc, hw, hr⟩ := hf
    simp [iteration, hc, hw, hr]
  | cons y ys ih =>
    intro s x post hs hpre hx hf
    have hy := hpre y (List.mem_cons_self y ys)
    have hb : (iteration c s y).brk = false := by
      by_cases h : (iteration c s y).brk = true
      · exact absurd ((iteration_brk_iff c s y).1 h) hy.2
      · simpa using h
    rw [List.cons_append, receptor_loop_cons_continue c y _ s hs hy.1 hb]
    dsimp only
    apply ih
    · rw [iteration_MainRun c s y hb]; exact hs
    · intro z hz; exact hpre z (List.mem_cons_of_mem y hz)
    · exact hx
    · exact hf

/-! ## Failure handling in the receptor loop -/

/-- C3, evaluated on the code: when set-up succeeds, the passes of `pre` are executed
without leaving the loop, and the next pass has an accepted packet, a failing `audio_write`
(negative) and a failing re-open `audio_init` (non-zero), the loop terminates and `main`
returns after `audio_release` and `socket_release`, but with exit status 0. -/
theorem receptor_main_double_failure_returns_zero (c : VbanH) (su : SetupIn)
    (pre : List IterIn) (x : IterIn) (post : List IterIn)
    (h1 : su.get_options = 0) (h2 : su.socket_init1 = 0) (h3 : su.audio_init = 0)
    (h4 : su.audio_set_map_config = 0) (h5 : su.socket_init2 = 0)
    (hpre : ∀ y ∈ pre, y.stop = false ∧ ¬ y.fatal)
    (hx : x.stop = false) (hc : x.check = 0) (hw : x.write < 0) (hr : x.reinit ≠ 0) :
    (receptor_main c su (pre ++ x :: post)).ret = some 0 ∧
    ∃ tr : List Event, (receptor_main c su (pre ++ x :: post)).trace =
      tr ++ [Event.audio_release, Event.socket_release] := by
  have h := receptor_loop_reaches_fatal c pre
    { MainRun := true, i := 0, ret := 0, size := 0 } x post rfl hpre hx ⟨hc, hw, hr⟩
  constructor
  · simp [receptor_main, h1, h2, h3, h4, h5, h.1]
  · refine ⟨[Event.socket_init 0, Event.audio_init 0, Event.audio_set_map_config 0,
        Event.socket_init 0] ++ loop_trace (receptor_loop c (pre ++ x :: post)
          { MainRun := true, i := 0, ret := 0, size := 0 }).iters, ?_⟩
    simp [receptor_main, h1, h2, h3, h4, h5, h.1]

/-- Witness for the evaluation of C3: the first packet is accepted, the write fails with
-1 and the re-open fails with -1. -/
theorem receptor_main_double_failure_returns_zero_witness :
    (receptor_main upstream ⟨0, 0, 0, 0, 0⟩
      ([] ++ ({ stop := false, size := 128, check := 0, setcfg := 0, write := -1,
                reinit := -1 } : IterIn) :: [])).ret = some 0 :=
  (receptor_main_double_failure_returns_zero upstream ⟨0, 0, 0, 0, 0⟩ []
    { stop := false, size := 128, check := 0, setcfg := 0, write := -1, reinit := -1 } []
    rfl rfl rfl rfl rfl (by simp) rfl rfl (by decide) (by decide)).1

/-- C5: in a pass that is executed, in which `audio_write` is called and returns a negative
value and the `audio_init` that follows returns 0, exactly one `audio_init` call and exactly
one `audio_write` call are made, `MainRun` stays set, the pass does not `break`, the loop
goes on with the rest of the run from the loop condition, and, unless a stop signal
arrives, the next pass is executed and calls `socket_read`. -/
theorem write_failure_reopen_ok_continues (c : VbanH) (s : LoopState) (x : IterIn)
    (xs : List IterIn) (hs : s.MainRun = true) (hx : x.stop = false)
    (hc : x.check = 0) (hw : x.write < 0) (hr : x.reinit = 0) :
    (iteration c s x).events.countP Event.isAudioInit = 1 ∧
    (iteration c s x).events.countP Event.isAudioWrite = 1 ∧
    (iteration c s x).state.MainRun = true ∧
    (iteration c s x).brk = false ∧
    receptor_loop c (x :: xs) s =
      { iters := { head_i := s.i, events := (iteration c s x).events } ::
          (receptor_loop c xs (iteration c s x).state).iters,
        state := (receptor_loop c xs (iteration c s x).state).state,
        exited := (receptor_loop c xs (iteration c s x).state).exited } ∧
    (∀ (y : IterIn) (ys : List IterIn), xs = y :: ys → y.stop = false →
      ∃ log : IterLog, (receptor_loop c (x :: xs) s).iters[1]? = some log ∧
        Event.socket_read ∈ log.events) := by
  have hb : (iteration c s x).brk = false := by
    by_cases h : (iteration c s x).brk = true
    · have := (iteration_brk_iff c s x).1 h
      exact absurd hr this.2.2
    · simpa using h
  have hm : (iteration c s x).state.MainRun = true := by
    rw [iteration_MainRun c s x hb]; exact hs
  refine ⟨?_, ?_, hm, hb, receptor_loop_cons_continue c x xs s hs hx hb, ?_⟩
  · rw [iteration_events]
    by_cases h512 : s.i ≥ 512 <;> simp [hc, hw, h512, Event.isAudioInit, List.countP_cons]
  · rw [iteration_events]
    by_cases h512 : s.i ≥ 512 <;> simp [hc, hw, h512, Event.isAudioWrite, List.countP_cons]
  · intro y ys hxs hy
    subst hxs
    rw [receptor_loop_cons_continue c x (y :: ys) s hs hx hb]
    have h0 := receptor_loop_first c y ys (iteration c s x).state hm hy
    refine ⟨{ head_i := (iteration c s x).state.i,
              events := (iteration c (iteration c s x).state y).events }, ?_,
            socket_read_mem_iteration c (iteration c s x).state y⟩
    simpa using h0

/-- C6: in a pass that is executed and in which `packet_check` rejects the datagram
(non-zero return), no backend operation is performed (no `packet_get_stream_config`,
`audio_set_stream_config`, `audio_write` or `audio_init` call: the calls are the beacon
when due, `socket_read` and `packet_check`), `MainRun` is left unchanged, the pass does not
`break`, and the loop continues with the rest of the run from the loop condition. -/
theorem rejected_packet_no_backend_op (c : VbanH) (s : LoopState) (x : IterIn)
    (xs : List IterIn) (hs : s.MainRun = true) (hx : x.stop = false) (hc : x.check ≠ 0) :
    (∀ e ∈ (iteration c s x).events, e.isBackendOp = false) ∧
    (iteration c s x).events =
      (if s.i ≥ 512 then [Event.socket_write (beacon_size c)] else []) ++
        [Event.socket_read, Event.packet_check] ∧
    (iteration c s x).state.MainRun = s.MainRun ∧
    (iteration c s x).brk = false ∧
    receptor_loop c (x :: xs) s =
      { iters := { head_i := s.i, events := (iteration c s x).events } ::
          (receptor_loop c xs (iteration c s x).state).iters,
        state := (receptor_loop c xs (iteration c s x).state).state,
        exited := (receptor_loop c xs (iteration c s x).state).exited } := by
  have hb : (iteration c s x).brk = false := by
    by_cases h : (iteration c s x).brk = true
    · exact absurd ((iteration_brk_iff c s x).1 h).1 hc
    · simpa using h
  have hev : (iteration c s x).events =
      (if s.i ≥ 512 then [Event.socket_write (beacon_size c)] else []) ++
        [Event.socket_read, Event.packet_check] := by
    rw [iteration_events]; simp [hc]
  refine ⟨?_, hev, iteration_MainRun c s x hb, hb,
    receptor_loop_cons_continue c x xs s hs hx hb⟩
  intro e he
  rw [hev] at he
  by_cases h512 : s.i ≥ 512
  · simp [h512] at he
    rcases he with rfl | rfl | rfl <;> rfl
  · simp [h512] at he
    rcases he with rfl | rfl <;> rfl

/-- Witness for C6: the first datagram is rejected. -/
theorem rejected_packet_no_backend_op_witness :
    ((⟨true, 0, 0, 0⟩ : LoopState).MainRun = true ∧
      (⟨false, 128, 1, 0, 0, 0⟩ : IterIn).stop = false ∧
      (⟨false, 128, 1, 0, 0, 0⟩ : IterIn).check ≠ 0) ∧
    (iteration upstream ⟨true, 0, 0, 0⟩ ⟨false, 128, 1, 0, 0, 0⟩).events =
      [Event.socket_read, Event.packet_check] ∧
    (∀ e ∈ (iteration upstream ⟨true, 0, 0, 0⟩ ⟨false, 128, 1, 0, 0, 0⟩).events,
      e.isBackendOp = false) ∧
    (iteration upstream ⟨true, 0, 0, 0⟩ ⟨false, 128, 1, 0, 0, 0⟩).brk = false :=
  ⟨by decide, by decide,
   (rejected_packet_no_backend_op upstream ⟨true, 0, 0, 0⟩ ⟨false, 128, 1, 0, 0, 0⟩ []
      rfl rfl (by decide)).1,
   (rejected_packet_no_backend_op upstream ⟨true, 0, 0, 0⟩ ⟨false, 128, 1, 0, 0, 0⟩ []
      rfl rfl (by decide)).2.2.2.1⟩

/-- Witness for C5: the write of the first packet fails with -1, the re-open succeeds, and
a second datagram follows. -/
theorem write_failure_reopen_ok_continues_witness :
    (iteration upstream ⟨true, 0, 0, 0⟩ ⟨false, 128, 0, 0, -1, 0⟩).events =
      [Event.socket_read, Event.packet_check, Event.packet_get_stream_config,
       Event.audio_set_stream_config 0, Event.audio_write (-1), Event.audio_init 0] ∧
    ((receptor_loop upstream [⟨false, 128, 0, 0, -1, 0⟩, ⟨false, 128, 1, 0, 0, 0⟩]
        ⟨true, 0, 0, 0⟩).iters.map IterLog.events)[1]? =
      some [Event.socket_read, Event.packet_check] ∧
    (iteration upstream ⟨true, 0, 0, 0⟩ ⟨false, 128, 0, 0, -1, 0⟩).state.MainRun = true :=
  ⟨by decide, by decide,
   (write_failure_reopen_ok_continues upstream ⟨true, 0, 0, 0⟩ ⟨false, 128, 0, 0, -1, 0⟩
      [⟨false, 128, 1, 0, 0, 0⟩] rfl rfl rfl (by decide) rfl).2.2.1⟩

/-! ## The service beacon -/

/-- C7: whatever the outcomes of the receives, the packet checks and the backend calls,
in a run of the loop from `i = 0` the pass with zero-based index `k` starts by sending the
service beacon (`socket_write` of header size plus service descriptor size bytes) exactly
when `0 < k` and `k % 512 = 0`, no other `socket_write` is made in the loop, and the
counter satisfies `0 ≤ i ≤ 512` at every test of the loop condition, the last one
included. -/
theorem beacon_period_512 (c : VbanH) (ins : List IterIn) (ret0 size0 : Int) :
    (∀ (k : Nat) (log : IterLog),
      (receptor_loop c ins ⟨true, 0, ret0, size0⟩).iters[k]? = some log →
        (0 ≤ log.head_i ∧ log.head_i ≤ 512) ∧
        (Event.socket_write (beacon_size c) ∈ log.events ↔ (0 < k ∧ k % 512 = 0)) ∧
        (log.events.head? = some (Event.socket_write (beacon_size c)) ↔
          (0 < k ∧ k % 512 = 0)) ∧
        (∀ n : Nat, Event.socket_write n ∈ log.events → n = beacon_size c)) ∧
    (0 ≤ (receptor_loop c ins ⟨true, 0, ret0, size0⟩).state.i ∧
      (receptor_loop c ins ⟨true, 0, ret0, size0⟩).state.i ≤ 512) := by
  refine ⟨?_, receptor_loop_final_i c ins ⟨true, 0, ret0, size0⟩ (by simp) (by simp)⟩
  intro k log h
  obtain ⟨hh, s1, x, hs1, hev⟩ :=
    receptor_loop_head_i c ins ⟨true, 0, ret0, size0⟩ 0 (by simp [counter_at]) k log h
  rw [Nat.zero_add] at hh
  have hge : s1.i ≥ 512 ↔ (0 < k ∧ k % 512 = 0) := by
    rw [hs1, hh]; exact counter_at_ge_iff k
  refine ⟨by rw [hh]; exact counter_at_bounds k, ?_, ?_, ?_⟩
  · rw [← hge, hev, iteration_events]
    by_cases h512 : s1.i ≥ 512
    · simp [h512]
    · by_cases hc : x.check = 0 <;> by_cases hw : x.write < 0 <;> simp [h512, hc, hw]
  · rw [← hge, hev, iteration_events]
    by_cases h512 : s1.i ≥ 512
    · simp [h512]
    · simp [h512]
  · intro n hn
    rw [hev, iteration_events] at hn
    by_cases h512 : s1.i ≥ 512 <;> by_cases hc : x.check = 0 <;>
      by_cases hw : x.write < 0 <;> simp [h512, hc, hw] at hn <;> exact hn

/-- A run whose passes all are executed without the fatal combination executes one pass
per environment record. -/
theorem receptor_loop_length (c : VbanH) :
    ∀ (ins : List IterIn) (s : LoopState), s.MainRun = true →
      (∀ y ∈ ins, y.stop = false ∧ ¬ y.fatal) →
      (receptor_loop c ins s).iters.length = ins.length := by
  intro ins
  induction ins with
  | nil => intro s _ _; simp [receptor_loop]
  | cons y ys ih =>
    intro s hs h
    have hy := h y (List.mem_cons_self y ys)
    have hb : (iteration c s y).brk = false := by
      by_cases hb : (iteration c s y).brk = true
      · exact absurd ((iteration_brk_iff c s y).1 hb) hy.2
      · simpa using hb
    rw [receptor_loop_cons_continue c y ys s hs hy.1 hb]
    simp only [List.length_cons]
    rw [ih (iteration c s y).state (by rw [iteration_MainRun c s y hb]; exact hs)
      (fun z hz => h z (List.mem_cons_of_mem y hz))]

/-- Witness for C7: in a run of 1025 passes that reject every datagram, pass 512 sends the
beacon and pass 513 does not. -/
theorem beacon_period_512_witness :
    (∃ log : IterLog,
      (receptor_loop upstream (List.replicate 1025 ⟨false, 128, 1, 0, 0, 0⟩)
        ⟨true, 0, 0, 0⟩).iters[512]? = some log ∧
      Event.socket_write (beacon_size upstream) ∈ log.events) ∧
    (∃ log : IterLog,
      (receptor_loop upstream (List.replicate 1025 ⟨false, 128, 1, 0, 0, 0⟩)
        ⟨true, 0, 0, 0⟩).iters[513]? = some log ∧
      Event.socket_write (beacon_size upstream) ∉ log.events) := by
  have hlen : (receptor_loop upstream (List.replicate 1025 ⟨false, 128, 1, 0, 0, 0⟩)
      ⟨true, 0, 0, 0⟩).iters.length = 1025 := by
    rw [receptor_loop_length upstream _ _ rfl, List.length_replicate]
    intro y hy
    rw [List.eq_of_mem_replicate hy]
    exact ⟨rfl, by simp [IterIn.fatal]⟩
  have h := (beacon_period_512 upstream (List.replicate 1025 ⟨false, 128, 1, 0, 0, 0⟩) 0 0).1
  constructor
  · have h512 : 512 < (receptor_loop upstream (List.replicate 1025 ⟨false, 128, 1, 0, 0, 0⟩)
        ⟨true, 0, 0, 0⟩).iters.length := by rw [hlen]; decide
    refine ⟨_, List.getElem?_eq_getElem h512, ?_⟩
    exact ((h 512 _ (List.getElem?_eq_getElem h512)).2.1).2 (by decide)
  · have h513 : 513 < (receptor_loop upstream (List.replicate 1025 ⟨false, 128, 1, 0, 0, 0⟩)
        ⟨true, 0, 0, 0⟩).iters.length := by rw [hlen]; decide
    refine ⟨_, List.getElem?_eq_getElem h513, ?_⟩
    intro hmem
    have := ((h 513 _ (List.getElem?_eq_getElem h513)).2.1).1 hmem
    exact absurd this.2 (by decide)

/-! ## Resources of the receptor -/

/-- C9, evaluated on the code: when the first `socket_init` succeeds and the `audio_init`
that follows fails with -1, `main` returns -1 after those two calls, without calling
`socket_release`. -/
theorem receptor_main_audio_init_failure_leaks_socket (c : VbanH) (ins : List IterIn) :
    receptor_main c ⟨0, 0, -1, 0, 0⟩ ins =
      { trace := [Event.socket_init 0, Event.audio_init (-1)], ret := some (-1) } ∧
    Event.socket_release ∉ (receptor_main c ⟨0, 0, -1, 0, 0⟩ ins).trace := by
  have h : receptor_main c ⟨0, 0, -1, 0, 0⟩ ins =
      { trace := [Event.socket_init 0, Event.audio_init (-1)], ret := some (-1) } := by
    simp [receptor_main]
  rw [h]
  exact ⟨rfl, by decide⟩

/-! ## The ping sender -/

/-- C8, as stated, fails: with the protocol constants a message of exactly
`VBAN_DATA_MAX_SIZE` = 1436 bytes is refused: `main` returns 1 without building or sending
anything. -/
theorem ping_main_max_size_message_counterexample :
    (1436 : Nat) ≤ upstream.VBAN_DATA_MAX_SIZE ∧
    ping_main upstream ⟨0, 1436, 0, 0⟩ = { trace := [], ret := some 1 } := by
  decide

/-- C8 (amended): after options parsed successfully, a message of length at most
`VBAN_DATA_MAX_SIZE - 1` that, together with header and service descriptor, fits the
`VBAN_PROTOCOL_MAX_SIZE` bytes of the buffer makes the sender build the packet and call
`socket_init`, and, when that returns 0, send header + descriptor + message with
`socket_write`, release the socket and return the value of `socket_write`; a message
longer than `VBAN_DATA_MAX_SIZE - 1` (one of length `VBAN_DATA_MAX_SIZE` included) makes
it return 1 before any call to the socket layer.  Nothing is stated for a message that
passes the check and does not fit the buffer. -/
theorem ping_main_length_check (c : VbanH) (x : PingIn) (h : x.get_options = 0) :
    (x.len ≤ c.VBAN_DATA_MAX_SIZE - 1 →
      beacon_size c + x.len ≤ c.VBAN_PROTOCOL_MAX_SIZE →
      ((ping_main c x).trace.take 2 =
          [Event.strncpy_msg (beacon_size c) x.len, Event.socket_init x.socket_init]) ∧
      (x.socket_init = 0 →
        ping_main c x =
          { trace := [Event.strncpy_msg (beacon_size c) x.len, Event.socket_init 0,
                      Event.socket_write (beacon_size c + x.len), Event.socket_release],
            ret := some x.socket_write }) ∧
      (x.socket_init ≠ 0 →
        ping_main c x =
          { trace := [Event.strncpy_msg (beacon_size c) x.len,
                      Event.socket_init x.socket_init],
            ret := some x.socket_init })) ∧
    (c.VBAN_DATA_MAX_SIZE - 1 < x.len →
      ping_main c x = { trace := [], ret := some 1 }) := by
  constructor
  · intro hl hfit
    have hl2 : ¬ (x.len > c.VBAN_DATA_MAX_SIZE - 1) := by omega
    have hfit2 : ¬ (c.VBAN_HEADER_SIZE + c.sizeof_VBanServiceData + x.len >
        c.VBAN_PROTOCOL_MAX_SIZE) := by
      unfold beacon_size at hfit; omega
    refine ⟨?_, ?_, ?_⟩
    · by_cases hi : x.socket_init = 0 <;> simp [ping_main, h, hl2, hfit2, hi, beacon_size]
    · intro hi; simp [ping_main, h, hl2, hfit2, hi, beacon_size]
    · intro hi; simp [ping_main, h, hl2, hfit2, hi, beacon_size]
  · intro hl
    simp [ping_main, h, hl]

/-- Witness for C8 (amended): a 5 byte message fits the buffer and is sent as a 709 byte
datagram. -/
theorem ping_main_length_check_witness :
    ((⟨0, 5, 0, 709⟩ : PingIn).get_options = 0 ∧
      (5 : Nat) ≤ upstream.VBAN_DATA_MAX_SIZE - 1 ∧
      beacon_size upstream + 5 ≤ upstream.VBAN_PROTOCOL_MAX_SIZE) ∧
    ping_main upstream ⟨0, 5, 0, 709⟩ =
      { trace := [Event.strncpy_msg 704 5, Event.socket_init 0, Event.socket_write 709,
                  Event.socket_release],
        ret := some 709 } :=
  ⟨by decide,
   ((ping_main_length_check upstream ⟨0, 5, 0, 709⟩ rfl).1 (by decide) (by decide)).2.1 rfl⟩

/-- C10, evaluated on the code: whenever the service descriptor has at least two bytes and
the header is smaller than the maximum datagram, the longest message that passes the
length check, `VBAN_DATA_MAX_SIZE - 1` bytes, is copied by `strncpy` to a range that ends
after the `VBAN_PROTOCOL_MAX_SIZE` bytes of `main_s.buffer`: the copy is the first call of
the run and the behaviour from there on is undefined. -/
theorem ping_main_message_overruns_buffer (c : VbanH) (x : PingIn)
    (hsvc : 2 ≤ c.sizeof_VBanServiceData)
    (hhdr : c.VBAN_HEADER_SIZE < c.VBAN_PROTOCOL_MAX_SIZE)
    (ho : x.get_options = 0)
    (hl : x.len = c.VBAN_DATA_MAX_SIZE - 1) :
    ¬ (x.len > c.VBAN_DATA_MAX_SIZE - 1) ∧
    c.VBAN_PROTOCOL_MAX_SIZE < beacon_size c + x.len ∧
    ping_main c x =
      { trace := [Event.strncpy_msg (beacon_size c) x.len], ret := none } := by
  have hl2 : ¬ (x.len > c.VBAN_DATA_MAX_SIZE - 1) := by omega
  have hover : c.VBAN_PROTOCOL_MAX_SIZE < beacon_size c + x.len := by
    rw [hl]
    unfold beacon_size VbanH.VBAN_DATA_MAX_SIZE
    omega
  have hover2 : c.VBAN_HEADER_SIZE + c.sizeof_VBanServiceData + x.len >
      c.VBAN_PROTOCOL_MAX_SIZE := by
    unfold beacon_size at hover; omega
  refine ⟨hl2, hover, ?_⟩
  simp [ping_main, ho, hl2, hover2, beacon_size]

/-- Witness for the evaluation of C10: with the protocol constants a message of 1435 bytes
passes the check and the copy covers bytes 704 to 2138 of the 1464 byte buffer. -/
theorem ping_main_message_overruns_buffer_witness :
    ((2 : Nat) ≤ upstream.sizeof_VBanServiceData ∧
      upstream.VBAN_HEADER_SIZE < upstream.VBAN_PROTOCOL_MAX_SIZE ∧
      (1435 : Nat) = upstream.VBAN_DATA_MAX_SIZE - 1) ∧
    ¬ ((1435 : Nat) > upstream.VBAN_DATA_MAX_SIZE - 1) ∧
    upstream.VBAN_PROTOCOL_MAX_SIZE < beacon_size upstream + 1435 ∧
    ping_main upstream ⟨0, 1435, 0, 0⟩ =
      { trace := [Event.strncpy_msg 704 1435], ret := none } :=
  ⟨by decide,
   ping_main_message_overruns_buffer upstream ⟨0, 1435, 0, 0⟩ (by decide) (by decide)
      rfl (by decide)⟩

end Vban
